import Mathlib

/-!
Shallow embedding of the `blugnu/msgpack` encoder (Go) and proofs about it.

The Go `Encoder` is a struct `{ out io.Writer; err error }`. All encoding
methods (`Write`, `Encode`, `EncodeString`, the integer family, the header
writers, `EncodeBool`, `EncodeBytes`, the float encoders) are declared with a
VALUE receiver `(enc Encoder)`: the method body operates on a copy of the
caller's struct, so assignments to `enc.err` inside those bodies never reach
the caller's session.  Only `ResetError`, `SetWriter` and `Using` take a
pointer receiver `(enc *Encoder)`.

The embedding models:
  - an `io.Writer` as a state-transformer `GoWriter σ := σ → List Nat → σ × Option Err`
    (the sink may fail, returning an error);
  - each value-receiver method as a function of the (copied) receiver and the
    sink state, returning the new sink state and the Go return value;
  - each pointer-receiver method as additionally returning the new `Encoder`;
  - Go `panic` as the `Ret.panik` constructor, distinct from a normal
    `error` return (`Ret.ok`);
  - machine integers as `Int`/`Nat` with explicit two's-complement reduction
    (`toUNat`) at every Go conversion site that can truncate.
-/

namespace Msgpack

/-- Errors.  `io n` stands for an arbitrary error value produced by an
`io.Writer`; `valueOutOfRange` and `unsupportedType` are the package's two
sentinel errors (`ErrValueOutOfRange`, `ErrUnsupportedType` in `errors.go`). -/
inductive Err where
  | io (code : Nat)
  | valueOutOfRange
  | unsupportedType
  deriving DecidableEq, Repr

/-- Outcome of a Go call that may panic: `ok e` is a normal return of the
`error` value `e` (`none` = nil); `panik e` is a panic carrying the sentinel
wrapped in the panic value. -/
inductive Ret where
  | ok (e : Option Err)
  | panik (e : Err)
  deriving DecidableEq, Repr

/-- An `io.Writer`: consumes a byte sequence, transforms the sink state, and
reports an optional failure (the `n` result of `io.Writer.Write` is ignored by
the encoder, so it is not modelled). -/
def GoWriter (σ : Type) : Type := σ → List Nat → σ × Option Err

/-- `type Encoder struct { out io.Writer; err error }` (encoder.go). -/
structure Encoder (σ : Type) where
  out : GoWriter σ
  err : Option Err

/-- `func NewEncoder(out io.Writer) Encoder { return Encoder{out: out} }` -/
def NewEncoder {σ : Type} (out : GoWriter σ) : Encoder σ := ⟨out, none⟩

/-- Two's-complement image of a Go integer in `w` bits: `toUNat w v` is the
unsigned `w`-bit value with the same bit pattern as `v`.  `Int.emod` is
euclidean, so the result is in `[0, 2^w)`. -/
def toUNat (w : Nat) (v : Int) : Nat := (v % ((2 : Int) ^ w)).toNat

/- Constants from `types.go`, with their source values (note the repository
defines `typeUint16 = 0xcc`, `typeUint32 = 0xcd`, `typeUint64 = 0xce`). -/

def minFixedInt : Int := -32
def maxFixedInt : Int := 127
def maxFixedUint : Nat := 127

def atomNil : Nat := 0xc0
def atomFalse : Nat := 0xc2
def atomTrue : Nat := 0xc3
def atomEmptyArray : Nat := 0x90
def atomEmptyMap : Nat := 0x80

def maskFixArray : Nat := 0x90
def maskFixMap : Nat := 0x80
def maskFixString : Nat := 0xa0

def typeArray16 : Nat := 0xdc
def typeArray32 : Nat := 0xdd
def typeBin8 : Nat := 0xc4
def typeBin16 : Nat := 0xc5
def typeBin32 : Nat := 0xc6
def typeFloat32 : Nat := 0xca
def typeFloat64 : Nat := 0xcb
def typeMap16 : Nat := 0xde
def typeMap32 : Nat := 0xdf
def typeInt8 : Nat := 0xd0
def typeInt16 : Nat := 0xd1
def typeInt32 : Nat := 0xd2
def typeInt64 : Nat := 0xd3
def typeUint8 : Nat := 0xcc
def typeUint16 : Nat := 0xcc
def typeUint32 : Nat := 0xcd
def typeUint64 : Nat := 0xce
def typeString8 : Nat := 0xd9
def typeString16 : Nat := 0xda
def typeString32 : Nat := 0xdb

/-- The closed set of value types accepted by `Encoder.Write`'s type switch.
Signed payloads are `Int` (the value of the Go `intN`), unsigned payloads are
`Nat`; floats are carried by their IEEE-754 bit pattern (`math.Float32bits` /
`math.Float64bits` is all `Write` uses of them). -/
inductive WVal where
  | u8 (v : Nat)
  | bytes (v : List Nat)
  | i8 (v : Int)
  | i16 (v : Int)
  | i32 (v : Int)
  | i64 (v : Int)
  | u16 (v : Nat)
  | u32 (v : Nat)
  | u64 (v : Nat)
  | f32 (bits : Nat)
  | f64 (bits : Nat)
  deriving DecidableEq, Repr

/-- The big-endian byte sequence `Encoder.Write` composes for each case of its
type switch (`[]byte{byte(v >> 8), byte(v)}` etc.).  For signed values the
shift-then-truncate pipeline is applied to the two's-complement image. -/
def WVal.toBytes : WVal → List Nat
  | .u8 v => [v % 256]
  | .bytes v => v
  | .i8 v => [toUNat 8 v]
  | .i16 v => [toUNat 16 v / 2 ^ 8 % 256, toUNat 16 v % 256]
  | .i32 v => [toUNat 32 v / 2 ^ 24 % 256, toUNat 32 v / 2 ^ 16 % 256,
      toUNat 32 v / 2 ^ 8 % 256, toUNat 32 v % 256]
  | .i64 v => [toUNat 64 v / 2 ^ 56 % 256, toUNat 64 v / 2 ^ 48 % 256,
      toUNat 64 v / 2 ^ 40 % 256, toUNat 64 v / 2 ^ 32 % 256,
      toUNat 64 v / 2 ^ 24 % 256, toUNat 64 v / 2 ^ 16 % 256,
      toUNat 64 v / 2 ^ 8 % 256, toUNat 64 v % 256]
  | .u16 v => [v / 2 ^ 8 % 256, v % 256]
  | .u32 v => [v / 2 ^ 24 % 256, v / 2 ^ 16 % 256, v / 2 ^ 8 % 256, v % 256]
  | .u64 v => [v / 2 ^ 56 % 256, v / 2 ^ 48 % 256, v / 2 ^ 40 % 256,
      v / 2 ^ 32 % 256, v / 2 ^ 24 % 256, v / 2 ^ 16 % 256, v / 2 ^ 8 % 256, v % 256]
  | .f32 bits => [bits / 2 ^ 24 % 256, bits / 2 ^ 16 % 256, bits / 2 ^ 8 % 256, bits % 256]
  | .f64 bits => [bits / 2 ^ 56 % 256, bits / 2 ^ 48 % 256, bits / 2 ^ 40 % 256,
      bits / 2 ^ 32 % 256, bits / 2 ^ 24 % 256, bits / 2 ^ 16 % 256,
      bits / 2 ^ 8 % 256, bits % 256]

/-- `func (enc Encoder) Write(b any) error` (value receiver).  If the sticky
error of the receiver copy is set, it is returned and the sink is not
touched; otherwise the composed bytes go to the sink in a single write and
the sink's error is returned (the body's `enc.err = ...` assignment only
mutates the local copy, which is discarded on return). -/
def Encoder.Write {σ : Type} (enc : Encoder σ) (s : σ) (b : WVal) : σ × Option Err :=
  match enc.err with
  | some e => (s, some e)
  | none => enc.out s b.toBytes

/-- `func (enc Encoder) WriteArrayHeader(len int) error` (value receiver).
Each inner `enc.Write(...)` receives a copy of the local `enc`, so its error
is discarded (`_ =` in the source) and the final `return enc.err` returns the
receiver copy's (unchanged) sticky error. -/
def Encoder.WriteArrayHeader {σ : Type} (enc : Encoder σ) (s : σ) (len : Int) :
    σ × Option Err :=
  if len = 0 then
    ((enc.Write s (.u8 atomEmptyArray)).1, enc.err)
  else if len < 16 then
    ((enc.Write s (.u8 (maskFixArray ||| toUNat 8 len))).1, enc.err)
  else if len < 65536 then
    ((enc.Write (enc.Write s (.u8 typeArray16)).1 (.u16 (toUNat 16 len))).1, enc.err)
  else
    ((enc.Write (enc.Write s (.u8 typeArray32)).1 (.u32 (toUNat 32 len))).1, enc.err)

/-- `func (enc Encoder) WriteMapHeader(n int) error` (value receiver). -/
def Encoder.WriteMapHeader {σ : Type} (enc : Encoder σ) (s : σ) (n : Int) :
    σ × Option Err :=
  if n = 0 then
    ((enc.Write s (.u8 atomEmptyMap)).1, enc.err)
  else if n < 16 then
    ((enc.Write s (.u8 (maskFixMap ||| toUNat 8 n))).1, enc.err)
  else if n < 65536 then
    ((enc.Write (enc.Write s (.u8 typeMap16)).1 (.u16 (toUNat 16 n))).1, enc.err)
  else
    ((enc.Write (enc.Write s (.u8 typeMap32)).1 (.u32 (toUNat 32 n))).1, enc.err)

/-- `func (enc Encoder) WriteStringHeader(len int) error` (value receiver). -/
def Encoder.WriteStringHeader {σ : Type} (enc : Encoder σ) (s : σ) (len : Int) :
    σ × Option Err :=
  if len < 32 then
    ((enc.Write s (.u8 (maskFixString ||| toUNat 8 len))).1, enc.err)
  else if len < 256 then
    ((enc.Write (enc.Write s (.u8 typeString8)).1 (.u8 (toUNat 8 len))).1, enc.err)
  else if len < 65536 then
    ((enc.Write (enc.Write s (.u8 typeString16)).1 (.u16 (toUNat 16 len))).1, enc.err)
  else
    ((enc.Write (enc.Write s (.u8 typeString32)).1 (.u32 (toUNat 32 len))).1, enc.err)

/-- `func (enc Encoder) EncodeBool(b bool) error` -/
def Encoder.EncodeBool {σ : Type} (enc : Encoder σ) (st : σ) (b : Bool) :
    σ × Option Err :=
  if b then enc.Write st (.u8 atomTrue) else enc.Write st (.u8 atomFalse)

/-- `func (enc Encoder) EncodeBytes(b []byte) error`.  A Go `nil` slice is
modelled as `none` (it encodes as the nil atom, unlike an empty slice). -/
def Encoder.EncodeBytes {σ : Type} (enc : Encoder σ) (st : σ) (b : Option (List Nat)) :
    σ × Option Err :=
  match b with
  | none => enc.Write st (.u8 atomNil)
  | some bs =>
    if bs.length < 256 then
      enc.Write (enc.Write (enc.Write st (.u8 typeBin8)).1 (.u8 (bs.length % 256))).1
        (.bytes bs)
    else if bs.length < 65536 then
      enc.Write (enc.Write (enc.Write st (.u8 typeBin16)).1 (.u16 (bs.length % 2 ^ 16))).1
        (.bytes bs)
    else
      enc.Write (enc.Write (enc.Write st (.u8 typeBin32)).1 (.u32 (bs.length % 2 ^ 32))).1
        (.bytes bs)

/-- `func (enc Encoder) EncodeFloat32(f float32) error`; the float is carried
by its IEEE-754 bit pattern, which is all the encoder reads from it. -/
def Encoder.EncodeFloat32 {σ : Type} (enc : Encoder σ) (st : σ) (bits : Nat) :
    σ × Option Err :=
  enc.Write (enc.Write st (.u8 typeFloat32)).1 (.f32 bits)

/-- `func (enc Encoder) EncodeFloat64(f float64) error` -/
def Encoder.EncodeFloat64 {σ : Type} (enc : Encoder σ) (st : σ) (bits : Nat) :
    σ × Option Err :=
  enc.Write (enc.Write st (.u8 typeFloat64)).1 (.f64 bits)

/-- `func (enc Encoder) EncodeString(s string) error`: writes the string
header, and only if the returned error is nil also writes the raw bytes via
`io.WriteString(enc.out, s)` (a direct sink write, bypassing `Write`). -/
def Encoder.EncodeString {σ : Type} (enc : Encoder σ) (st : σ) (s : List Nat) :
    σ × Option Err :=
  match enc.WriteStringHeader st (s.length : Int) with
  | (st1, none) => enc.out st1 s
  | (st1, some e) => (st1, some e)

/-- `func (enc Encoder) EncodeFixedInt(i int) error`: panics with
`ErrValueOutOfRange` outside −32..127, otherwise writes the single fixint
byte `byte(i)`. -/
def Encoder.EncodeFixedInt {σ : Type} (enc : Encoder σ) (st : σ) (i : Int) : σ × Ret :=
  if i < minFixedInt ∨ i > maxFixedInt then
    (st, .panik .valueOutOfRange)
  else
    let r := enc.Write st (.u8 (toUNat 8 i))
    (r.1, .ok r.2)

/-- `func (enc Encoder) EncodeInt8(i int8) error` -/
def Encoder.EncodeInt8 {σ : Type} (enc : Encoder σ) (st : σ) (i : Int) :
    σ × Option Err :=
  if i < minFixedInt then
    enc.Write (enc.Write st (.u8 typeInt8)).1 (.i8 i)
  else
    enc.Write st (.u8 (toUNat 8 i))

/-- `func (enc Encoder) EncodeInt16(i int16) error` -/
def Encoder.EncodeInt16 {σ : Type} (enc : Encoder σ) (st : σ) (i : Int) :
    σ × Option Err :=
  if i < -128 then
    enc.Write (enc.Write st (.u8 typeInt16)).1 (.i16 i)
  else if i < minFixedInt then
    enc.Write (enc.Write st (.u8 typeInt8)).1 (.i8 i)
  else if i ≤ maxFixedInt then
    enc.Write st (.u8 (toUNat 8 i))
  else if i ≤ 255 then
    enc.Write (enc.Write st (.u8 typeUint8)).1 (.u8 (toUNat 8 i))
  else
    enc.Write (enc.Write st (.u8 typeInt16)).1 (.i16 i)

/-- `func (enc Encoder) EncodeInt32(i int32) error` -/
def Encoder.EncodeInt32 {σ : Type} (enc : Encoder σ) (st : σ) (i : Int) :
    σ × Option Err :=
  if i < -32768 then
    enc.Write (enc.Write st (.u8 typeInt32)).1 (.i32 i)
  else if i < -128 then
    enc.Write (enc.Write st (.u8 typeInt16)).1 (.i16 i)
  else if i < minFixedInt then
    enc.Write (enc.Write st (.u8 typeInt8)).1 (.i8 i)
  else if i ≤ maxFixedInt then
    enc.Write st (.u8 (toUNat 8 i))
  else if i ≤ 255 then
    enc.Write (enc.Write st (.u8 typeUint8)).1 (.u8 (toUNat 8 i))
  else if i ≤ 65535 then
    enc.Write (enc.Write st (.u8 typeUint16)).1 (.u16 (toUNat 16 i))
  else
    enc.Write (enc.Write st (.u8 typeInt32)).1 (.i32 i)

/-- `func (enc Encoder) EncodeInt64(i int64) error` -/
def Encoder.EncodeInt64 {σ : Type} (enc : Encoder σ) (st : σ) (i : Int) :
    σ × Option Err :=
  if i < -2147483648 then
    enc.Write (enc.Write st (.u8 typeInt64)).1 (.i64 i)
  else if i < -32768 then
    enc.Write (enc.Write st (.u8 typeInt32)).1 (.i32 i)
  else if i < -128 then
    enc.Write (enc.Write st (.u8 typeInt16)).1 (.i16 i)
  else if i < minFixedInt then
    enc.Write (enc.Write st (.u8 typeInt8)).1 (.i8 i)
  else if i ≤ maxFixedInt then
    enc.Write st (.u8 (toUNat 8 i))
  else if i ≤ 255 then
    enc.Write (enc.Write st (.u8 typeUint8)).1 (.u8 (toUNat 8 i))
  else if i ≤ 65535 then
    enc.Write (enc.Write st (.u8 typeUint16)).1 (.u16 (toUNat 16 i))
  else if i ≤ 4294967295 then
    enc.Write (enc.Write st (.u8 typeUint32)).1 (.u32 (toUNat 32 i))
  else
    enc.Write (enc.Write st (.u8 typeUint64)).1 (.i64 i)

/-- `func (enc Encoder) EncodeInt(i int) error` (Go `int` is 64-bit here;
identical tiers to `EncodeInt64`, final branch writes `int64(i)`). -/
def Encoder.EncodeInt {σ : Type} (enc : Encoder σ) (st : σ) (i : Int) :
    σ × Option Err :=
  if i < -2147483648 then
    enc.Write (enc.Write st (.u8 typeInt64)).1 (.i64 i)
  else if i < -32768 then
    enc.Write (enc.Write st (.u8 typeInt32)).1 (.i32 i)
  else if i < -128 then
    enc.Write (enc.Write st (.u8 typeInt16)).1 (.i16 i)
  else if i < minFixedInt then
    enc.Write (enc.Write st (.u8 typeInt8)).1 (.i8 i)
  else if i ≤ maxFixedInt then
    enc.Write st (.u8 (toUNat 8 i))
  else if i ≤ 255 then
    enc.Write (enc.Write st (.u8 typeUint8)).1 (.u8 (toUNat 8 i))
  else if i ≤ 65535 then
    enc.Write (enc.Write st (.u8 typeUint16)).1 (.u16 (toUNat 16 i))
  else if i ≤ 4294967295 then
    enc.Write (enc.Write st (.u8 typeUint32)).1 (.u32 (toUNat 32 i))
  else
    enc.Write (enc.Write st (.u8 typeUint64)).1 (.i64 i)

/-- `func (enc Encoder) EncodeUint8(i uint8) error` -/
def Encoder.EncodeUint8 {σ : Type} (enc : Encoder σ) (st : σ) (i : Nat) :
    σ × Option Err :=
  if i ≤ maxFixedUint then
    enc.Write st (.u8 (i % 256))
  else
    enc.Write (enc.Write st (.u8 typeUint8)).1 (.u8 i)

/-- `func (enc Encoder) EncodeUint16(i uint16) error` -/
def Encoder.EncodeUint16 {σ : Type} (enc : Encoder σ) (st : σ) (i : Nat) :
    σ × Option Err :=
  if i ≤ maxFixedUint then
    enc.Write st (.u8 (i % 256))
  else if i ≤ 255 then
    enc.Write (enc.Write st (.u8 typeUint8)).1 (.u8 (i % 256))
  else
    enc.Write (enc.Write st (.u8 typeUint16)).1 (.u16 i)

/-- `func (enc Encoder) EncodeUint32(i uint32) error` -/
def Encoder.EncodeUint32 {σ : Type} (enc : Encoder σ) (st : σ) (i : Nat) :
    σ × Option Err :=
  if i ≤ maxFixedUint then
    enc.Write st (.u8 (i % 256))
  else if i ≤ 255 then
    enc.Write (enc.Write st (.u8 typeUint8)).1 (.u8 (i % 256))
  else if i ≤ 65535 then
    enc.Write (enc.Write st (.u8 typeUint16)).1 (.u16 (i % 2 ^ 16))
  else
    enc.Write (enc.Write st (.u8 typeUint32)).1 (.u32 i)

/-- `func (enc Encoder) EncodeUint64(i uint64) error` -/
def Encoder.EncodeUint64 {σ : Type} (enc : Encoder σ) (st : σ) (i : Nat) :
    σ × Option Err :=
  if i ≤ maxFixedUint then
    enc.Write st (.u8 (i % 256))
  else if i ≤ 255 then
    enc.Write (enc.Write st (.u8 typeUint8)).1 (.u8 (i % 256))
  else if i ≤ 65535 then
    enc.Write (enc.Write st (.u8 typeUint16)).1 (.u16 (i % 2 ^ 16))
  else if i ≤ 4294967295 then
    enc.Write (enc.Write st (.u8 typeUint32)).1 (.u32 (i % 2 ^ 32))
  else
    enc.Write (enc.Write st (.u8 typeUint64)).1 (.u64 i)

/-- `func (enc Encoder) EncodeUint(i uint) error` (Go `uint` is 64-bit here). -/
def Encoder.EncodeUint {σ : Type} (enc : Encoder σ) (st : σ) (i : Nat) :
    σ × Option Err :=
  if i ≤ maxFixedUint then
    enc.Write st (.u8 (i % 256))
  else if i ≤ 255 then
    enc.Write (enc.Write st (.u8 typeUint8)).1 (.u8 (i % 256))
  else if i ≤ 65535 then
    enc.Write (enc.Write st (.u8 typeUint16)).1 (.u16 (i % 2 ^ 16))
  else if i ≤ 4294967295 then
    enc.Write (enc.Write st (.u8 typeUint32)).1 (.u32 (i % 2 ^ 32))
  else
    enc.Write (enc.Write st (.u8 typeUint64)).1 (.u64 i)

/-- The item loop shared by `EncodeArray` and `EncodeMap`:
`for _, v := range s { if enc.err != nil { break }; enc.err = fn(enc, v) };
return enc.err`.  The loop variable `enc` is the function's local copy, so
the error assigned by one iteration is visible to the next (and passed into
`fn`), but never to the caller. -/
def encodeItems {σ T : Type} (fn : Encoder σ → σ → T → σ × Option Err) :
    Encoder σ → σ → List T → σ × Option Err
  | enc, st, [] => (st, enc.err)
  | enc, st, v :: vs =>
    match enc.err with
    | some e => (st, some e)
    | none =>
      let r := fn enc st v
      encodeItems fn { enc with err := r.2 } r.1 vs

/-- `func EncodeArray[T any](enc Encoder, s []T, fn func(Encoder, T) error) error`
(`encode.array.go`).  The per-item function is an explicit parameter; the
source's `fn == nil` default (`enc.Encode`) is instantiated at call sites. -/
def EncodeArray {σ T : Type} (enc : Encoder σ) (st : σ) (s : List T)
    (fn : Encoder σ → σ → T → σ × Option Err) : σ × Option Err :=
  match enc.WriteArrayHeader st (s.length : Int) with
  | (st1, some e) => (st1, some e)
  | (st1, none) => encodeItems fn enc st1 s

/-- `func EncodeMap[K comparable, V any](enc Encoder, m map[K]V, fn MapEncoder[K, V]) error`.
The map is modelled as its (implementation-ordered) list of entries. -/
def EncodeMap {σ K V : Type} (enc : Encoder σ) (st : σ) (m : List (K × V))
    (fn : Encoder σ → σ → K → V → σ × Option Err) : σ × Option Err :=
  match enc.WriteMapHeader st (m.length : Int) with
  | (st1, some e) => (st1, some e)
  | (st1, none) => encodeItems (fun enc st kv => fn enc st kv.1 kv.2) enc st1 m

/-- The runtime types `Encoder.Encode`'s type switch can receive.  Constructors
mirror the Go dynamic types; `f32`/`f64` carry IEEE-754 bit patterns, and
`unsupported` stands for any type outside the switch (e.g. `struct{}{}`). -/
inductive GoValue where
  | nil
  | bool (b : Bool)
  | int (i : Int)
  | i8 (i : Int)
  | i16 (i : Int)
  | i32 (i : Int)
  | i64 (i : Int)
  | uint (u : Nat)
  | u8 (u : Nat)
  | u16 (u : Nat)
  | u32 (u : Nat)
  | u64 (u : Nat)
  | intSlice (s : List Int)
  | str (s : List Nat)
  | f32 (bits : Nat)
  | f64 (bits : Nat)
  | unsupported
  deriving DecidableEq, Repr

/-- Lift a non-panicking method result into the panic-aware result type. -/
def okOf {σ : Type} (r : σ × Option Err) : σ × Ret := (r.1, .ok r.2)

/-- `func (enc Encoder) Encode(v any) error` (value receiver): the dynamic
dispatch type switch.  The switch has NO case for `float32`/`float64` (they
are `// TODO` in the source), so float values fall through to the default
arm, which panics with `ErrUnsupportedType`. -/
def Encoder.Encode {σ : Type} (enc : Encoder σ) (st : σ) (v : GoValue) : σ × Ret :=
  match v with
  | .nil => okOf (enc.Write st (.u8 atomNil))
  | .bool b =>
    if b then okOf (enc.Write st (.u8 atomTrue)) else okOf (enc.Write st (.u8 atomFalse))
  | .int i => okOf (enc.EncodeInt st i)
  | .i8 i => okOf (enc.EncodeInt8 st i)
  | .i16 i => okOf (enc.EncodeInt16 st i)
  | .i32 i => okOf (enc.EncodeInt32 st i)
  | .i64 i => okOf (enc.EncodeInt64 st i)
  | .uint u => okOf (enc.EncodeUint st u)
  | .u8 u => okOf (enc.EncodeUint8 st u)
  | .u16 u => okOf (enc.EncodeUint16 st u)
  | .u32 u => okOf (enc.EncodeUint32 st u)
  | .u64 u => okOf (enc.EncodeUint64 st u)
  | .intSlice s => okOf (EncodeArray enc st s (fun enc st v => enc.EncodeInt st v))
  | .str s => okOf (enc.EncodeString st s)
  | .f32 _ => (st, .panik .unsupportedType)
  | .f64 _ => (st, .panik .unsupportedType)
  | .unsupported => (st, .panik .unsupportedType)

/-- `func (e *Encoder) ResetError() (err error)` (pointer receiver): returns
the sticky error and clears it on the session. -/
def Encoder.ResetError {σ : Type} (enc : Encoder σ) : Encoder σ × Option Err :=
  ({ enc with err := none }, enc.err)

/-- `func (enc *Encoder) SetWriter(out io.Writer)` (pointer receiver). -/
def Encoder.SetWriter {σ : Type} (enc : Encoder σ) (out : GoWriter σ) : Encoder σ :=
  { enc with out := out }

/-- `func (enc *Encoder) Using(dest io.Writer, fn func() error) error`
(pointer receiver).  `fn` is a closure over the session pointer, so it may
mutate the encoder and the sink and may panic; it is modelled as a function
from the session's visible state to its new state plus outcome.  The body
saves `og := enc.out`, sets `enc.out = dest`, runs `fn`; on a normal return
`enc.err = fn()` is assigned and returned; the deferred `enc.out = og` runs
on both the normal and the panicking exit path, after `fn`'s own effects. -/
def Encoder.Using {σ : Type} (enc : Encoder σ) (st : σ) (dest : GoWriter σ)
    (fn : Encoder σ → σ → Encoder σ × σ × Ret) : Encoder σ × σ × Ret :=
  let og := enc.out
  match fn { enc with out := dest } st with
  | (enc2, st2, .ok e) => ({ enc2 with out := og, err := e }, st2, .ok e)
  | (enc2, st2, .panik p) => ({ enc2 with out := og }, st2, .panik p)

/-- A sink that appends every written byte to its state and always succeeds
(a `bytes.Buffer`). -/
def collector : GoWriter (List Nat) := fun s bs => (s ++ bs, none)

/-- A fresh encoder over a `collector` sink with no sticky error. -/
def cleanEnc : Encoder (List Nat) := NewEncoder collector

/-- A sink that logs every byte whose write is attempted but rejects every
write with the fixed error `e`; the log makes "the sink was asked to write
value bytes" observable. -/
def failRecorder (e : Err) : GoWriter (List Nat) := fun s bs => (s ++ bs, some e)

/-- A sink that rejects its first write with `e` (accepting nothing) and
accepts all subsequent writes; state = (write calls so far, accepted bytes). -/
def failFirst (e : Err) : GoWriter (Nat × List Nat) :=
  fun s bs => if s.1 = 0 then ((1, s.2), some e) else ((s.1 + 1, s.2 ++ bs), none)

/-- The (monomorphic) encoding operations of the `Encoder` API, used to
quantify over "every encoding call". -/
inductive EncOp where
  | write (b : WVal)
  | encode (v : GoValue)
  | encodeBool (b : Bool)
  | encodeBytes (b : Option (List Nat))
  | encodeFloat32 (bits : Nat)
  | encodeFloat64 (bits : Nat)
  | encodeString (s : List Nat)
  | encodeFixedInt (i : Int)
  | encodeInt (i : Int)
  | encodeInt8 (i : Int)
  | encodeInt16 (i : Int)
  | encodeInt32 (i : Int)
  | encodeInt64 (i : Int)
  | encodeUint (u : Nat)
  | encodeUint8 (u : Nat)
  | encodeUint16 (u : Nat)
  | encodeUint32 (u : Nat)
  | encodeUint64 (u : Nat)
  | writeArrayHeader (n : Int)
  | writeMapHeader (n : Int)
  | writeStringHeader (n : Int)

/-- Dispatch an `EncOp` to the corresponding method of the embedding. -/
def runOp {σ : Type} (op : EncOp) (enc : Encoder σ) (st : σ) : σ × Ret :=
  match op with
  | .write b => okOf (enc.Write st b)
  | .encode v => enc.Encode st v
  | .encodeBool b => okOf (enc.EncodeBool st b)
  | .encodeBytes b => okOf (enc.EncodeBytes st b)
  | .encodeFloat32 bits => okOf (enc.EncodeFloat32 st bits)
  | .encodeFloat64 bits => okOf (enc.EncodeFloat64 st bits)
  | .encodeString s => okOf (enc.EncodeString st s)
  | .encodeFixedInt i => enc.EncodeFixedInt st i
  | .encodeInt i => okOf (enc.EncodeInt st i)
  | .encodeInt8 i => okOf (enc.EncodeInt8 st i)
  | .encodeInt16 i => okOf (enc.EncodeInt16 st i)
  | .encodeInt32 i => okOf (enc.EncodeInt32 st i)
  | .encodeInt64 i => okOf (enc.EncodeInt64 st i)
  | .encodeUint u => okOf (enc.EncodeUint st u)
  | .encodeUint8 u => okOf (enc.EncodeUint8 st u)
  | .encodeUint16 u => okOf (enc.EncodeUint16 st u)
  | .encodeUint32 u => okOf (enc.EncodeUint32 st u)
  | .encodeUint64 u => okOf (enc.EncodeUint64 st u)
  | .writeArrayHeader n => okOf (enc.WriteArrayHeader st n)
  | .writeMapHeader n => okOf (enc.WriteMapHeader st n)
  | .writeStringHeader n => okOf (enc.WriteStringHeader st n)

/-- Operations whose argument is within its contract, i.e. that cannot hit a
panic arm: `Encode` must not receive a type outside its switch (floats are
outside it in this codebase) and `EncodeFixedInt` must receive −32..127.
All other operations never panic. -/
def EncOp.panicFree : EncOp → Prop
  | .encode (.f32 _) => False
  | .encode (.f64 _) => False
  | .encode .unsupported => False
  | .encodeFixedInt i => minFixedInt ≤ i ∧ i ≤ maxFixedInt
  | _ => True

/-- A call on an encoder session: either one of the monomorphic `EncOp`s or a
generic container function or a pointer-receiver session control. -/
inductive SessionOp (σ : Type) : Type 1 where
  | call (op : EncOp)
  | callEncodeArray (T : Type) (s : List T) (fn : Encoder σ → σ → T → σ × Option Err)
  | callEncodeMap (K V : Type) (m : List (K × V))
      (fn : Encoder σ → σ → K → V → σ × Option Err)
  | callResetError
  | callSetWriter (w : GoWriter σ)
  | callUsing (dest : GoWriter σ) (fn : Encoder σ → σ → Encoder σ × σ × Ret)

/-- Go call semantics for one session call.  The encoding methods and the
generic container functions take the `Encoder` BY VALUE (value receiver /
value parameter), so the caller's session after the call is the unchanged
`enc` paired with the new sink state; `ResetError`, `SetWriter` and `Using`
take the session by pointer and install the method's updated encoder. -/
def runSession {σ : Type} : SessionOp σ → Encoder σ × σ → Encoder σ × σ
  | .call op, (enc, st) => (enc, (runOp op enc st).1)
  | .callEncodeArray _ s fn, (enc, st) => (enc, (EncodeArray enc st s fn).1)
  | .callEncodeMap _ _ m fn, (enc, st) => (enc, (EncodeMap enc st m fn).1)
  | .callResetError, (enc, st) => (enc.ResetError.1, st)
  | .callSetWriter w, (enc, st) => (enc.SetWriter w, st)
  | .callUsing dest fn, (enc, st) =>
    let r := enc.Using st dest fn
    (r.1, r.2.1)

/-- Spec-side definition (the §4.2 tier table read in reverse): decode an
array header byte sequence back to the element count.  `none` if the bytes
are not exactly one array header. -/
def readArrayHeader : List Nat → Option Nat
  | [t] => if 0x90 ≤ t ∧ t ≤ 0x9f then some (t - 0x90) else none
  | [t, a, b] => if t = 0xdc then some (a * 256 + b) else none
  | [t, a, b, c, d] =>
    if t = 0xdd then some (((a * 256 + b) * 256 + c) * 256 + d) else none
  | _ => none

/-- Spec-side definition: decode a map header byte sequence back to the entry
count. -/
def readMapHeader : List Nat → Option Nat
  | [t] => if 0x80 ≤ t ∧ t ≤ 0x8f then some (t - 0x80) else none
  | [t, a, b] => if t = 0xde then some (a * 256 + b) else none
  | [t, a, b, c, d] =>
    if t = 0xdf then some (((a * 256 + b) * 256 + c) * 256 + d) else none
  | _ => none

/-- Spec-side definition: decode a string header byte sequence back to the
byte length. -/
def readStringHeader : List Nat → Option Nat
  | [t] => if 0xa0 ≤ t ∧ t ≤ 0xbf then some (t - 0xa0) else none
  | [t, a] => if t = 0xd9 then some a else none
  | [t, a, b] => if t = 0xda then some (a * 256 + b) else none
  | [t, a, b, c, d] =>
    if t = 0xdb then some (((a * 256 + b) * 256 + c) * 256 + d) else none
  | _ => none

/-- Spec-side definition (MessagePack wire format, §4.3 reading): the unique
SHORTEST valid MessagePack encoding of an integer, preferring the unsigned
form for non-negative values.  MessagePack's tag bytes are uint8 `0xcc`,
uint16 `0xcd`, uint32 `0xce`, uint64 `0xcf`, int8 `0xd0`, int16 `0xd1`,
int32 `0xd2`, int64 `0xd3`. -/
def msgpackIntBytes (i : Int) : List Nat :=
  if 0 ≤ i then
    if i ≤ 127 then [toUNat 8 i]
    else if i ≤ 255 then [0xcc, toUNat 8 i]
    else if i ≤ 65535 then 0xcd :: (WVal.u16 (toUNat 16 i)).toBytes
    else if i ≤ 4294967295 then 0xce :: (WVal.u32 (toUNat 32 i)).toBytes
    else 0xcf :: (WVal.u64 (toUNat 64 i)).toBytes
  else
    if -32 ≤ i then [toUNat 8 i]
    else if -128 ≤ i then [0xd0, toUNat 8 i]
    else if -32768 ≤ i then 0xd1 :: (WVal.i16 i).toBytes
    else if -2147483648 ≤ i then 0xd2 :: (WVal.i32 i).toBytes
    else 0xd3 :: (WVal.i64 i).toBytes

/-! ### Helper lemmas -/

theorem cleanEnc_write (st : List Nat) (b : WVal) :
    cleanEnc.Write st b = (st ++ b.toBytes, none) := rfl

theorem toUNat_ofNat (w n : Nat) : toUNat w (n : Int) = n % 2 ^ w := by
  unfold toUNat
  norm_cast

theorem toUNat8_lt (v : Int) : toUNat 8 v < 256 := by
  unfold toUNat
  have h : (2 : Int) ^ 8 = 256 := by norm_num
  rw [h]
  omega

theorem lor_mask144 {n : Nat} (h : n < 16) : 144 ||| n = 144 + n := by
  interval_cases n <;> rfl

theorem lor_mask128 {n : Nat} (h : n < 16) : 128 ||| n = 128 + n := by
  interval_cases n <;> rfl

theorem lor_mask160 {n : Nat} (h : n < 32) : 160 ||| n = 160 + n := by
  interval_cases n <;> rfl

theorem write_sticky {σ : Type} {enc : Encoder σ} {e : Err} (h : enc.err = some e)
    (st : σ) (b : WVal) : enc.Write st b = (st, some e) := by
  unfold Encoder.Write
  rw [h]

theorem writeArrayHeader_sticky {σ : Type} {enc : Encoder σ} {e : Err}
    (h : enc.err = some e) (st : σ) (n : Int) :
    enc.WriteArrayHeader st n = (st, some e) := by
  unfold Encoder.WriteArrayHeader
  split_ifs <;> simp [write_sticky h, h]

theorem writeMapHeader_sticky {σ : Type} {enc : Encoder σ} {e : Err}
    (h : enc.err = some e) (st : σ) (n : Int) :
    enc.WriteMapHeader st n = (st, some e) := by
  unfold Encoder.WriteMapHeader
  split_ifs <;> simp [write_sticky h, h]

theorem writeStringHeader_sticky {σ : Type} {enc : Encoder σ} {e : Err}
    (h : enc.err = some e) (st : σ) (n : Int) :
    enc.WriteStringHeader st n = (st, some e) := by
  unfold Encoder.WriteStringHeader
  split_ifs <;> simp [write_sticky h, h]

theorem encodeString_sticky {σ : Type} {enc : Encoder σ} {e : Err}
    (h : enc.err = some e) (st : σ) (s : List Nat) :
    enc.EncodeString st s = (st, some e) := by
  unfold Encoder.EncodeString
  rw [writeStringHeader_sticky h]

theorem encodeArray_sticky {σ T : Type} {enc : Encoder σ} {e : Err}
    (h : enc.err = some e) (st : σ) (s : List T)
    (fn : Encoder σ → σ → T → σ × Option Err) :
    EncodeArray enc st s fn = (st, some e) := by
  unfold EncodeArray
  rw [writeArrayHeader_sticky h]

theorem encodeMap_sticky {σ K V : Type} {enc : Encoder σ} {e : Err}
    (h : enc.err = some e) (st : σ) (m : List (K × V))
    (fn : Encoder σ → σ → K → V → σ × Option Err) :
    EncodeMap enc st m fn = (st, some e) := by
  unfold EncodeMap
  rw [writeMapHeader_sticky h]

theorem arrayHeader_roundtrip (n : Nat) (h : n < 4294967296) :
    readArrayHeader ((cleanEnc.WriteArrayHeader [] (n : Int)).1) = some n := by
  unfold Encoder.WriteArrayHeader
  rcases Nat.eq_zero_or_pos n with h0 | h0
  · subst h0; decide
  rcases Nat.lt_or_ge n 16 with h16 | h16
  · rw [if_neg (by omega), if_pos (by omega)]
    simp only [cleanEnc_write, WVal.toBytes, toUNat_ofNat, maskFixArray, List.nil_append]
    rw [Nat.mod_eq_of_lt (show n < 2 ^ 8 by omega), lor_mask144 h16,
      Nat.mod_eq_of_lt (show 144 + n < 256 by omega)]
    simp only [readArrayHeader]
    rw [if_pos (by omega)]
    simp only [Option.some.injEq]
    omega
  rcases Nat.lt_or_ge n 65536 with h65 | h65
  · rw [if_neg (by omega), if_neg (by omega), if_pos (by omega)]
    simp only [cleanEnc_write, WVal.toBytes, toUNat_ofNat, typeArray16, List.nil_append,
      List.cons_append, List.append_nil]
    simp only [readArrayHeader, if_true]
    simp only [Option.some.injEq]
    omega
  · rw [if_neg (by omega), if_neg (by omega), if_neg (by omega)]
    simp only [cleanEnc_write, WVal.toBytes, toUNat_ofNat, typeArray32, List.nil_append,
      List.cons_append, List.append_nil]
    simp only [readArrayHeader, if_true]
    simp only [Option.some.injEq]
    omega

theorem mapHeader_roundtrip (n : Nat) (h : n < 4294967296) :
    readMapHeader ((cleanEnc.WriteMapHeader [] (n : Int)).1) = some n := by
  unfold Encoder.WriteMapHeader
  rcases Nat.eq_zero_or_pos n with h0 | h0
  · subst h0; decide
  rcases Nat.lt_or_ge n 16 with h16 | h16
  · rw [if_neg (by omega), if_pos (by omega)]
    simp only [cleanEnc_write, WVal.toBytes, toUNat_ofNat, maskFixMap, List.nil_append]
    rw [Nat.mod_eq_of_lt (show n < 2 ^ 8 by omega), lor_mask128 h16,
      Nat.mod_eq_of_lt (show 128 + n < 256 by omega)]
    simp only [readMapHeader]
    rw [if_pos (by omega)]
    simp only [Option.some.injEq]
    omega
  rcases Nat.lt_or_ge n 65536 with h65 | h65
  · rw [if_neg (by omega), if_neg (by omega), if_pos (by omega)]
    simp only [cleanEnc_write, WVal.toBytes, toUNat_ofNat, typeMap16, List.nil_append,
      List.cons_append, List.append_nil]
    simp only [readMapHeader, if_true]
    simp only [Option.some.injEq]
    omega
  · rw [if_neg (by omega), if_neg (by omega), if_neg (by omega)]
    simp only [cleanEnc_write, WVal.toBytes, toUNat_ofNat, typeMap32, List.nil_append,
      List.cons_append, List.append_nil]
    simp only [readMapHeader, if_true]
    simp only [Option.some.injEq]
    omega

theorem stringHeader_roundtrip (n : Nat) (h : n < 4294967296) :
    readStringHeader ((cleanEnc.WriteStringHeader [] (n : Int)).1) = some n := by
  unfold Encoder.WriteStringHeader
  rcases Nat.lt_or_ge n 32 with h32 | h32
  · rw [if_pos (by omega)]
    simp only [cleanEnc_write, WVal.toBytes, toUNat_ofNat, maskFixString, List.nil_append]
    rw [Nat.mod_eq_of_lt (show n < 2 ^ 8 by omega), lor_mask160 h32,
      Nat.mod_eq_of_lt (show 160 + n < 256 by omega)]
    simp only [readStringHeader]
    rw [if_pos (by omega)]
    simp only [Option.some.injEq]
    omega
  rcases Nat.lt_or_ge n 256 with h256 | h256
  · rw [if_neg (by omega), if_pos (by omega)]
    simp only [cleanEnc_write, WVal.toBytes, toUNat_ofNat, typeString8, List.nil_append,
      List.cons_append, List.append_nil]
    rw [Nat.mod_eq_of_lt (show n < 2 ^ 8 by omega),
      Nat.mod_eq_of_lt (show n < 256 by omega)]
    simp only [readStringHeader, if_true]
  rcases Nat.lt_or_ge n 65536 with h65 | h65
  · rw [if_neg (by omega), if_neg (by omega), if_pos (by omega)]
    simp only [cleanEnc_write, WVal.toBytes, toUNat_ofNat, typeString16, List.nil_append,
      List.cons_append, List.append_nil]
    simp only [readStringHeader, if_true]
    simp only [Option.some.injEq]
    omega
  · rw [if_neg (by omega), if_neg (by omega), if_neg (by omega)]
    simp only [cleanEnc_write, WVal.toBytes, toUNat_ofNat, typeString32, List.nil_append,
      List.cons_append, List.append_nil]
    simp only [readStringHeader, if_true]
    simp only [Option.some.injEq]
    omega

set_option maxHeartbeats 1000000

theorem encodeInt_length_eq (i : Int) :
    (cleanEnc.EncodeInt [] i).1.length = (msgpackIntBytes i).length := by
  unfold Encoder.EncodeInt msgpackIntBytes
  simp only [minFixedInt, maxFixedInt]
  split_ifs <;>
    simp only [cleanEnc_write, WVal.toBytes, List.nil_append, List.cons_append,
      List.length_cons, List.length_nil, List.length_append] <;>
    omega

theorem encodeInt64_length_eq (i : Int) :
    (cleanEnc.EncodeInt64 [] i).1.length = (msgpackIntBytes i).length := by
  unfold Encoder.EncodeInt64 msgpackIntBytes
  simp only [minFixedInt, maxFixedInt]
  split_ifs <;>
    simp only [cleanEnc_write, WVal.toBytes, List.nil_append, List.cons_append,
      List.length_cons, List.length_nil, List.length_append] <;>
    omega

theorem encodeUint64_length_eq (u : Nat) :
    (cleanEnc.EncodeUint64 [] u).1.length = (msgpackIntBytes (u : Int)).length := by
  unfold Encoder.EncodeUint64 msgpackIntBytes
  simp only [maxFixedUint]
  split_ifs <;>
    simp only [cleanEnc_write, WVal.toBytes, List.nil_append, List.cons_append,
      List.length_cons, List.length_nil, List.length_append] <;>
    omega

theorem encodeUint_length_eq (u : Nat) :
    (cleanEnc.EncodeUint [] u).1.length = (msgpackIntBytes (u : Int)).length := by
  unfold Encoder.EncodeUint msgpackIntBytes
  simp only [maxFixedUint]
  split_ifs <;>
    simp only [cleanEnc_write, WVal.toBytes, List.nil_append, List.cons_append,
      List.length_cons, List.length_nil, List.length_append] <;>
    omega

/-! ### Claim theorems -/

/-- C1 (code bug, evaluation at the failing input): over a sink that rejects
only its first write, a first `Write` on an error-free encoder returns the
sink's error, but — because `Write` has a value receiver — the error is NOT
captured on the session: a second encoding call on the very same encoder
value proceeds, writes the byte `0xc0` to the sink, and returns nil, instead
of returning the first error and writing nothing as the claim (and the
method's own documentation) states. -/
theorem writeFailure_not_sticky_eval :
    ((NewEncoder (failFirst (.io 0))).Write (0, []) (.u8 atomNil)
      = ((1, []), some (.io 0)))
  ∧ ((NewEncoder (failFirst (.io 0))).Write (1, []) (.u8 atomNil)
      = ((2, [0xc0]), none)) := by
  decide

/-- C2: on a session whose sticky error field is set to `e`, every encoding
operation — `Write`, `Encode` (on any value inside its supported set),
`EncodeBool`, `EncodeBytes`, the float and string encoders, the whole
integer family (`EncodeFixedInt` within its range), the three header
writers, and the generic `EncodeArray`/`EncodeMap` — returns exactly `e` and
leaves the sink state untouched (the sink is never invoked). -/
theorem stickyError_suppresses_all_encoding {σ : Type} (enc : Encoder σ) (st : σ)
    (e : Err) (h : enc.err = some e) :
    (∀ op : EncOp, op.panicFree → runOp op enc st = (st, .ok (some e)))
  ∧ (∀ (T : Type) (s : List T) (fn : Encoder σ → σ → T → σ × Option Err),
      EncodeArray enc st s fn = (st, some e))
  ∧ (∀ (K V : Type) (m : List (K × V)) (fn : Encoder σ → σ → K → V → σ × Option Err),
      EncodeMap enc st m fn = (st, some e)) := by
  refine ⟨?_, fun T s fn => encodeArray_sticky h st s fn,
    fun K V m fn => encodeMap_sticky h st m fn⟩
  intro op hop
  cases op with
  | write b => simp [runOp, okOf, write_sticky h]
  | encode v =>
    cases v with
    | nil => simp [runOp, Encoder.Encode, okOf, write_sticky h]
    | bool b => cases b <;> simp [runOp, Encoder.Encode, okOf, write_sticky h]
    | int i => simp [runOp, Encoder.Encode, Encoder.EncodeInt, okOf, write_sticky h]
    | i8 i => simp [runOp, Encoder.Encode, Encoder.EncodeInt8, okOf, write_sticky h]
    | i16 i => simp [runOp, Encoder.Encode, Encoder.EncodeInt16, okOf, write_sticky h]
    | i32 i => simp [runOp, Encoder.Encode, Encoder.EncodeInt32, okOf, write_sticky h]
    | i64 i => simp [runOp, Encoder.Encode, Encoder.EncodeInt64, okOf, write_sticky h]
    | uint u => simp [runOp, Encoder.Encode, Encoder.EncodeUint, okOf, write_sticky h]
    | u8 u => simp [runOp, Encoder.Encode, Encoder.EncodeUint8, okOf, write_sticky h]
    | u16 u => simp [runOp, Encoder.Encode, Encoder.EncodeUint16, okOf, write_sticky h]
    | u32 u => simp [runOp, Encoder.Encode, Encoder.EncodeUint32, okOf, write_sticky h]
    | u64 u => simp [runOp, Encoder.Encode, Encoder.EncodeUint64, okOf, write_sticky h]
    | intSlice s => simp [runOp, Encoder.Encode, okOf, encodeArray_sticky h]
    | str s => simp [runOp, Encoder.Encode, okOf, encodeString_sticky h]
    | f32 bits => exact hop.elim
    | f64 bits => exact hop.elim
    | unsupported => exact hop.elim
  | encodeBool b => cases b <;> simp [runOp, Encoder.EncodeBool, okOf, write_sticky h]
  | encodeBytes b =>
    cases b <;> simp [runOp, Encoder.EncodeBytes, okOf, write_sticky h]
  | encodeFloat32 bits => simp [runOp, Encoder.EncodeFloat32, okOf, write_sticky h]
  | encodeFloat64 bits => simp [runOp, Encoder.EncodeFloat64, okOf, write_sticky h]
  | encodeString s => simp [runOp, okOf, encodeString_sticky h]
  | encodeFixedInt i =>
    obtain ⟨h1, h2⟩ := hop
    simp only [runOp, Encoder.EncodeFixedInt]
    rw [if_neg (by omega)]
    simp [write_sticky h]
  | encodeInt i => simp [runOp, Encoder.EncodeInt, okOf, write_sticky h]
  | encodeInt8 i => simp [runOp, Encoder.EncodeInt8, okOf, write_sticky h]
  | encodeInt16 i => simp [runOp, Encoder.EncodeInt16, okOf, write_sticky h]
  | encodeInt32 i => simp [runOp, Encoder.EncodeInt32, okOf, write_sticky h]
  | encodeInt64 i => simp [runOp, Encoder.EncodeInt64, okOf, write_sticky h]
  | encodeUint u => simp [runOp, Encoder.EncodeUint, okOf, write_sticky h]
  | encodeUint8 u => simp [runOp, Encoder.EncodeUint8, okOf, write_sticky h]
  | encodeUint16 u => simp [runOp, Encoder.EncodeUint16, okOf, write_sticky h]
  | encodeUint32 u => simp [runOp, Encoder.EncodeUint32, okOf, write_sticky h]
  | encodeUint64 u => simp [runOp, Encoder.EncodeUint64, okOf, write_sticky h]
  | writeArrayHeader n => simp [runOp, okOf, writeArrayHeader_sticky h]
  | writeMapHeader n => simp [runOp, okOf, writeMapHeader_sticky h]
  | writeStringHeader n => simp [runOp, okOf, writeStringHeader_sticky h]

/-- Witness for C2 at a concrete failed session (sticky error `io 3`,
collector sink): `EncodeString` returns the sticky error writing nothing,
and so does `EncodeArray`. -/
theorem stickyError_suppresses_all_encoding_witness :
    runOp (.encodeString [104, 105]) ⟨collector, some (.io 3)⟩ []
      = ([], .ok (some (.io 3)))
  ∧ EncodeArray ⟨collector, some (.io 3)⟩ [] [(1 : Int)]
      (fun e s v => e.EncodeInt s v) = ([], some (.io 3)) :=
  ⟨(stickyError_suppresses_all_encoding ⟨collector, some (.io 3)⟩ [] (.io 3) rfl).1
      (.encodeString [104, 105]) trivial,
   (stickyError_suppresses_all_encoding ⟨collector, some (.io 3)⟩ [] (.io 3) rfl).2.1
      Int [(1 : Int)] (fun e s v => e.EncodeInt s v)⟩

/-- C3 (code bug, evaluation at the failing input): with an error-free
encoder over a sink that rejects every write (logging attempted bytes),
`WriteArrayHeader` returns nil even though the sink rejected the header
write (the value-receiver `Write` cannot update the caller's error), so
`EncodeArray` over `[]int{5}` goes on to invoke the per-item encoder: the
sink log `[0x91, 0x05]` shows the item byte was attempted after the failed
header write, contradicting "the per-item encoder is never invoked". -/
theorem encodeArray_attempts_items_after_header_failure :
    ((NewEncoder (failRecorder (.io 0))).WriteArrayHeader [] 1 = ([0x91], none))
  ∧ EncodeArray (NewEncoder (failRecorder (.io 0))) [] [(5 : Int)]
      (fun e s v => e.EncodeInt s v) = ([0x91, 0x05], some (.io 0)) := by
  decide

/-- C4 (code bug, evaluation at the failing input): `types.go` defines
`typeUint16 = 0xcc` — the same byte as `typeUint8` — and `typeUint32 = 0xcd`,
`typeUint64 = 0xce`, instead of MessagePack's 0xcd/0xce/0xcf.  Encoding 600
(in 256..65535) therefore emits `[0xcc, 0x02, 0x58]` (uint8 tag followed by
two bytes), not the MessagePack uint16 encoding `[0xcd, 0x02, 0x58]`, and
the four unsigned tags are not pairwise distinct. -/
theorem uint16_tier_uses_wrong_tag :
    cleanEnc.EncodeUint16 [] 600 = ([0xcc, 0x02, 0x58], none)
  ∧ typeUint16 = typeUint8
  ∧ (typeUint16, typeUint32, typeUint64) ≠ ((0xcd : Nat), (0xce : Nat), (0xcf : Nat)) := by
  decide

/-- C5 counterexample: at `n = 2^32` the header writers truncate the count
(`uint32(len)` in Go), so the written array header decodes to 0, not `n` —
the claimed round trip fails for `n ≥ 2^32`. -/
theorem headerRoundtrip_fails_at_2_pow_32 :
    readArrayHeader ((cleanEnc.WriteArrayHeader [] (4294967296 : Int)).1) = some 0
  ∧ (0 : Nat) ≠ 4294967296 := by
  decide

/-- C5 (amended: restricted to `n < 2^32`): for every count `n < 2^32` the
array, map and string headers written on a clean encoder follow the §4.2
tier table, and decoding the tag and length bytes reproduces `n`. -/
theorem headerRoundtrip_below_2_pow_32 (n : Nat) (h : n < 4294967296) :
    readArrayHeader ((cleanEnc.WriteArrayHeader [] (n : Int)).1) = some n
  ∧ readMapHeader ((cleanEnc.WriteMapHeader [] (n : Int)).1) = some n
  ∧ readStringHeader ((cleanEnc.WriteStringHeader [] (n : Int)).1) = some n :=
  ⟨arrayHeader_roundtrip n h, mapHeader_roundtrip n h, stringHeader_roundtrip n h⟩

/-- Witness for C5 at the boundary value `n = 65536` (the 32-bit tier). -/
theorem headerRoundtrip_below_2_pow_32_witness :
    readArrayHeader ((cleanEnc.WriteArrayHeader [] ((65536 : Nat) : Int)).1) = some 65536
  ∧ readMapHeader ((cleanEnc.WriteMapHeader [] ((65536 : Nat) : Int)).1) = some 65536
  ∧ readStringHeader ((cleanEnc.WriteStringHeader [] ((65536 : Nat) : Int)).1) = some 65536 :=
  headerRoundtrip_below_2_pow_32 65536 (by norm_num)

/-- C6 counterexample: encoding 256 emits `[0xcc, 0x01, 0x00]` (because
`typeUint16 = 0xcc` in `types.go`), which differs from the shortest valid
MessagePack representation `[0xcd, 0x01, 0x00]` — so the emitted bytes are
not "the shortest valid MessagePack representation" for the uint16 tier. -/
theorem encodeInt_256_not_valid_msgpack :
    (cleanEnc.EncodeInt [] 256).1 = [0xcc, 0x01, 0x00]
  ∧ msgpackIntBytes 256 = [0xcd, 0x01, 0x00]
  ∧ (cleanEnc.EncodeInt [] 256).1 ≠ msgpackIntBytes 256 := by
  decide

/-- C6 (amended: shortest-length selection holds; the tag bytes of the
uint16/uint32/uint64 tiers are the repository's constants 0xcc/0xcd/0xce
rather than MessagePack's, per the C4 defect): for every integer the signed
and unsigned encoders emit exactly as many bytes as the shortest valid
MessagePack representation — 1 byte on −32..127, 2 bytes on 128..255 (as
`0xcc` then the value, e.g. 128 ↦ `[0xcc, 0x80]`) and on −128..−33, 3 bytes
on 256..65535 (32768 included) and on −32768..−129, 5 and 9 bytes on the
wider tiers — preferring the unsigned form for non-negative values. -/
theorem intEncoders_shortest_length :
    (∀ i : Int, (cleanEnc.EncodeInt [] i).1.length = (msgpackIntBytes i).length)
  ∧ (∀ i : Int, (cleanEnc.EncodeInt64 [] i).1.length = (msgpackIntBytes i).length)
  ∧ (∀ u : Nat, (cleanEnc.EncodeUint64 [] u).1.length = (msgpackIntBytes (u : Int)).length)
  ∧ (∀ u : Nat, (cleanEnc.EncodeUint [] u).1.length = (msgpackIntBytes (u : Int)).length)
  ∧ cleanEnc.EncodeInt [] 128 = ([0xcc, 0x80], none)
  ∧ (cleanEnc.EncodeInt [] 32768).1.length = 3
  ∧ (cleanEnc.EncodeInt [] (-33)).1.length = 2
  ∧ (cleanEnc.EncodeInt [] (-129)).1.length = 3
  ∧ (cleanEnc.EncodeInt [] (-32769)).1.length = 5
  ∧ (cleanEnc.EncodeInt [] (-2147483649)).1.length = 9 :=
  ⟨encodeInt_length_eq, encodeInt64_length_eq, encodeUint64_length_eq,
   encodeUint_length_eq, by decide, by decide, by decide, by decide, by decide, by decide⟩

/-- C7: within −32..127, `EncodeFixedInt` behaves exactly as a `Write` of
the single fixint byte `byte(i)` (on a clean collector encoder it writes
exactly that one byte and returns nil); outside the range it panics with
`ErrValueOutOfRange` — the panic channel, distinct from the normal error
return — touching neither the sink nor the return channel. -/
theorem encodeFixedInt_contract {σ : Type} (enc : Encoder σ) (st : σ) (i : Int) :
    (minFixedInt ≤ i → i ≤ maxFixedInt →
      enc.EncodeFixedInt st i = okOf (enc.Write st (.u8 (toUNat 8 i)))
      ∧ cleanEnc.EncodeFixedInt [] i = ([toUNat 8 i], .ok none))
  ∧ (i < minFixedInt ∨ maxFixedInt < i →
      enc.EncodeFixedInt st i = (st, .panik .valueOutOfRange)) := by
  constructor
  · intro h1 h2
    constructor
    · unfold Encoder.EncodeFixedInt
      rw [if_neg (by omega)]
      rfl
    · unfold Encoder.EncodeFixedInt
      rw [if_neg (by omega)]
      simp [cleanEnc_write, WVal.toBytes, okOf, Nat.mod_eq_of_lt (toUNat8_lt i)]
  · intro hout
    unfold Encoder.EncodeFixedInt
    rw [if_pos (by omega)]

/-- Witness for C7: in range, −32 writes exactly `[0xe0]`; out of range, 128
panics with the range sentinel and writes nothing. -/
theorem encodeFixedInt_contract_witness :
    cleanEnc.EncodeFixedInt [] (-32) = ([0xe0], .ok none)
  ∧ cleanEnc.EncodeFixedInt [] 128 = ([], .panik .valueOutOfRange) :=
  ⟨((encodeFixedInt_contract cleanEnc [] (-32)).1 (by decide) (by decide)).2,
   (encodeFixedInt_contract cleanEnc [] 128).2 (Or.inr (by decide))⟩

/-- C8 (code bug, evaluation at the failing input): `Encode`'s type switch
has no float cases (they are `// TODO` in the source), so a float32 value —
here π with bits 0x40490FDB — falls into the default arm and panics with
`ErrUnsupportedType` instead of delegating; the dedicated `EncodeFloat32` /
`EncodeFloat64` do write tag 0xca/0xcb plus the big-endian IEEE-754 bytes,
which is what the repository's own tests expect of `Encode` too. -/
theorem encode_panics_on_float_eval :
    cleanEnc.Encode [] (.f32 0x40490FDB) = ([], .panik .unsupportedType)
  ∧ cleanEnc.Encode [] (.f64 0x400921FB54442D18) = ([], .panik .unsupportedType)
  ∧ cleanEnc.EncodeFloat32 [] 0x40490FDB = ([0xca, 0x40, 0x49, 0x0f, 0xdb], none)
  ∧ cleanEnc.EncodeFloat64 [] 0x400921FB54442D18
      = ([0xcb, 0x40, 0x09, 0x21, 0xfb, 0x54, 0x44, 0x2d, 0x18], none) := by
  decide

/-- C9: whatever `fn` does to the session and however it exits (normal
return or panic), `Using` restores the encoder's original sink; when `fn`
returns the error `e`, that error becomes the session's sticky error and is
returned by `Using`. -/
theorem using_restores_sink_and_sets_sticky {σ : Type} (enc : Encoder σ) (st : σ)
    (dest : GoWriter σ) (fn : Encoder σ → σ → Encoder σ × σ × Ret) :
    (enc.Using st dest fn).1.out = enc.out
  ∧ (∀ e : Option Err, (fn { enc with out := dest } st).2.2 = .ok e →
      (enc.Using st dest fn).1.err = e ∧ (enc.Using st dest fn).2.2 = .ok e) := by
  rcases hr : fn { enc with out := dest } st with ⟨e2, s2, r⟩
  cases r with
  | ok e0 =>
    refine ⟨by simp [Encoder.Using, hr], ?_⟩
    intro e he
    have he2 : Ret.ok e0 = Ret.ok e := he
    injection he2 with he3
    subst he3
    constructor <;> simp [Encoder.Using, hr]
  | panik p =>
    refine ⟨by simp [Encoder.Using, hr], ?_⟩
    intro e he
    have he2 : Ret.panik p = Ret.ok e := he
    cases he2

/-- Witness for C9: a concrete `fn` returning error `io 7` makes it the
session's sticky error and `Using`'s return value. -/
theorem using_restores_sink_and_sets_sticky_witness :
    (cleanEnc.Using [] (failRecorder (.io 1))
        (fun e s => (e, s, Ret.ok (some (.io 7))))).1.err = some (.io 7)
  ∧ (cleanEnc.Using [] (failRecorder (.io 1))
        (fun e s => (e, s, Ret.ok (some (.io 7))))).2.2 = .ok (some (.io 7)) :=
  (using_restores_sink_and_sets_sticky cleanEnc [] (failRecorder (.io 1))
      (fun e s => (e, s, Ret.ok (some (.io 7))))).2 (some (.io 7)) rfl

/-- C10: under Go call semantics (`runSession`), every value-receiver
encoding call — any `EncOp`, and the by-value generic `EncodeArray` /
`EncodeMap`, whatever the sink does — leaves the caller's encoder (both its
sink field and its error field) unchanged; the pointer-receiver operations
are exactly the ones that mutate the session: `ResetError` clears the error
field, `SetWriter` replaces the sink field, and `Using` (which still
restores the sink field on exit). -/
theorem valueReceiver_calls_preserve_session {σ : Type} (enc : Encoder σ) (st : σ) :
    (∀ op : EncOp, (runSession (.call op) (enc, st)).1 = enc)
  ∧ (∀ (T : Type) (s : List T) (fn : Encoder σ → σ → T → σ × Option Err),
      (runSession (.callEncodeArray T s fn) (enc, st)).1 = enc)
  ∧ (∀ (K V : Type) (m : List (K × V)) (fn : Encoder σ → σ → K → V → σ × Option Err),
      (runSession (.callEncodeMap K V m fn) (enc, st)).1 = enc)
  ∧ (runSession .callResetError (enc, st)).1 = { enc with err := none }
  ∧ (∀ w : GoWriter σ, (runSession (.callSetWriter w) (enc, st)).1 = { enc with out := w })
  ∧ (∀ (dest : GoWriter σ) (fn : Encoder σ → σ → Encoder σ × σ × Ret),
      (runSession (.callUsing dest fn) (enc, st)).1.out = enc.out) := by
  refine ⟨fun op => rfl, fun T s fn => rfl, fun K V m fn => rfl, rfl, fun w => rfl,
    fun dest fn => ?_⟩
  rcases hr : fn { enc with out := dest } st with ⟨e2, s2, r⟩
  cases r <;> simp [runSession, Encoder.Using, hr]

end Msgpack
